import Mathlib

set_option maxHeartbeats 1000000

/-!
Shallow embedding of `scripts/geodata/geoplanet/geoplanet_training_data.py`
(class `GeoPlanetFormatter`).  Pure Python data is translated to Lean
structures; the sqlite tables become in-memory lists; external collaborators
(affix stripper, equivalence tester, country-name resolver, dropout selector,
address formatter) become function parameters gathered in `Collabs`;
exceptions (`KeyError` on dictionary lookups) become `Except Err`;
the unbounded `while` loop of `get_place_hierarchy` is given explicit fuel.
-/

/-- Characters removed by `name.strip(' ,-')`. -/
def stripChars (c : Char) : Bool := c == ' ' || c == ',' || c == '-'

/-- `GeoPlanetFormatter.cleanup_name`: Python `name.strip(' ,-')`, which removes
the characters space, comma and hyphen from both ends of the string. -/
def cleanup_name (s : String) : String :=
  String.mk (((s.data.dropWhile stripChars).reverse.dropWhile stripChars).reverse)

/-- True when the string neither begins nor ends with a space, comma or hyphen. -/
def noEdgeStrip (s : String) : Bool :=
  s.data.head?.all (fun c => !stripChars c) && s.data.reverse.head?.all (fun c => !stripChars c)

/-- Python `str.lower()` restricted to its use here (ASCII country codes). -/
def strLower (s : String) : String := String.mk (s.data.map Char.toLower)

/-- A row of the `places` table minus its id: `(country, name, language, place_type, parent)`,
exactly the tuple stored in `self.places[id]`. -/
structure Place where
  country : String
  name : String
  language : String
  placeType : String
  parent : Nat
deriving DecidableEq, Repr

/-- A row of the `aliases` table: `(id, name, name_type, language)`. -/
structure AliasRow where
  id : Nat
  name : String
  nameType : String
  language : String
deriving DecidableEq, Repr

/-- A row of the `postal_codes` table:
`(postal_code_id, country, postal_code, language, place_type, parent_id)`. -/
structure PostalCode where
  id : Nat
  country : String
  code : String
  language : String
  placeType : String
  parent : Nat
deriving DecidableEq, Repr

/-- Errors of the embedded program: Python `KeyError` on `self.places[...]`
(an unresolved place id), on `self.language_codes[...]` (an unknown gazetteer
language code) and on `self.place_types[...]`; `fuelExhausted` marks a run of
the hierarchy `while` loop that did not finish within the given fuel
(the Python loop would simply not terminate). -/
inductive Err where
  | notFound : Nat → Err
  | unknownLanguage : String → Err
  | unknownPlaceType : String → Err
  | fuelExhausted : Err
deriving DecidableEq, Repr

/-- `GeoPlanetFormatter.language_codes`: GeoPlanet 3-letter codes to ISO-639 alpha2.
A missing key is a Python `KeyError`, hence `Option`. -/
def language_codes (c : String) : Option String :=
  if c = "ENG" then some "en"
  else if c = "JPN" then some "ja"
  else if c = "GER" then some "de"
  else if c = "SPA" then some "es"
  else if c = "FRE" then some "fr"
  else if c = "UNK" then some "unk"
  else if c = "ITA" then some "it"
  else if c = "POR" then some "pt"
  else if c = "POL" then some "pl"
  else if c = "ARA" then some "ar"
  else if c = "CZE" then some "cs"
  else if c = "SWE" then some "sv"
  else if c = "CHI" then some "zh"
  else if c = "RUM" then some "ro"
  else if c = "FIN" then some "fi"
  else if c = "DUT" then some "nl"
  else if c = "NOR" then some "nb"
  else if c = "DAN" then some "da"
  else if c = "HUN" then some "hu"
  else if c = "KOR" then some "kr"
  else none

/-- `GeoPlanetFormatter.place_types`: GeoPlanet place types to `AddressFormatter`
component categories (the categories are opaque tokens here). -/
def place_types (t : String) : Option String :=
  if t = "Continent" then some "world_region"
  else if t = "Country" then some "country"
  else if t = "CountryRegion" then some "country_region"
  else if t = "State" then some "state"
  else if t = "County" then some "state_district"
  else if t = "Island" then some "island"
  else if t = "Town" then some "city"
  else if t = "LocalAdmin" then some "city_district"
  else if t = "Suburb" then some "suburb"
  else none

/-- Priority assigned by the SQL `case name_type ... end` expression of pass 1. -/
def nameTypePrio (t : String) : Nat :=
  if t = "P" then 1
  else if t = "Q" then 2
  else if t = "V" then 3
  else if t = "A" then 4
  else if t = "S" then 5
  else 6

/-- The in-memory `self.places` dictionary, as an association list. -/
def lookupPlace (places : List (Nat × Place)) (pid : Nat) : Option Place :=
  (places.find? (fun e => e.1 == pid)).map (fun e => e.2)

/-- One parent-link step: `self.places[place_id][-1]`. -/
def parentOf (places : List (Nat × Place)) (pid : Nat) : Option Nat :=
  (lookupPlace places pid).map (fun p => p.parent)

/-- Loop of `GeoPlanetFormatter.get_place_hierarchy`:
`while place_id != 1 and place_id != original_place_id:` look the place up
(KeyError if absent), append it, and move to its parent.  `fuel` bounds the
number of loop iterations; the Python loop has no such bound. -/
def hierAux (places : List (Nat × Place)) (orig : Nat) :
    Nat → Nat → List (Nat × Place) → Except Err (List (Nat × Place))
  | 0, _, _ => .error .fuelExhausted
  | fuel + 1, pid, acc =>
    if pid = 1 ∨ pid = orig then .ok acc.reverse
    else
      match lookupPlace places pid with
      | none => .error (.notFound pid)
      | some pl => hierAux places orig fuel pl.parent ((pid, pl) :: acc)

/-- `GeoPlanetFormatter.get_place_hierarchy`: append the leaf place itself,
then follow parent links until the parent is the root sentinel 1 or the
original leaf id. -/
def get_place_hierarchy (places : List (Nat × Place)) (fuel : Nat) (pid : Nat) :
    Except Err (List (Nat × Place)) :=
  match lookupPlace places pid with
  | none => .error (.notFound pid)
  | some pl => hierAux places pid fuel pl.parent [(pid, pl)]

/-- The sequence of place ids visited by the walk of `get_place_hierarchy`,
including the visits made before fuel runs out or a lookup fails; a pure
observer of the same loop, used to talk about repeated ids. -/
def hierTraceAux (places : List (Nat × Place)) (orig : Nat) :
    Nat → Nat → List Nat → List Nat
  | 0, _, acc => acc.reverse
  | fuel + 1, pid, acc =>
    if pid = 1 ∨ pid = orig then acc.reverse
    else
      match lookupPlace places pid with
      | none => acc.reverse
      | some pl => hierTraceAux places orig fuel pl.parent (pid :: acc)

/-- Visited-id trace of `get_place_hierarchy` (leaf id first). -/
def hierTrace (places : List (Nat × Place)) (fuel : Nat) (pid : Nat) : List Nat :=
  match lookupPlace places pid with
  | none => []
  | some pl => hierTraceAux places pid fuel pl.parent [pid]

/-- `chainIter places orig m` is the id reached after following `m` parent links
from `orig` (`none` when some lookup on the way fails). -/
def chainIter (places : List (Nat × Place)) (orig : Nat) : Nat → Option Nat
  | 0 => some orig
  | m + 1 => (chainIter places orig m).bind (fun v => parentOf places v)

/-- Whether the id reached after `m` parent links exists and is a stop id
(the sentinel 1 or the original leaf). -/
def chainStop (places : List (Nat × Place)) (orig : Nat) (m : Nat) : Bool :=
  match chainIter places orig m with
  | some v => v == 1 || v == orig
  | none => false

/-- The ids `chainIter k, chainIter (k+1), ...` (`n` of them), stopping early
if the chain becomes undefined. -/
def chainSeg (places : List (Nat × Place)) (orig : Nat) : Nat → Nat → List Nat
  | _, 0 => []
  | k, n + 1 =>
    match chainIter places orig k with
    | some v => v :: chainSeg places orig (k + 1) n
    | none => []

/-- External collaborators of `GeoPlanetFormatter`, passed in as functions.
`equivalent` already has the fixed `toponym_abbreviations_gazetteer` argument
folded in; its `Option String` argument is the language (`none` models
Python `None`). -/
structure Collabs where
  localized : String → String → Option String
  alpha3 : String → Option String
  template_language_matters : String → String → Bool
  format_address : List (String × String) → String → Option String → Bool → String
  dropout_components : List (String × String) → String → List (String × String)
  replace_prefixes : String → String → String
  replace_suffixes : String → String → String
  equivalent : String → String → Option String → Bool

/-- Keep condition of the pass-1 SQL query combined with the Python
`self.places.get(row[0])` check: the alias's place must resolve, the SQL keeps
only rows with `name_type != "S" and name_type != "V"`, and the left join with
`p.id is NULL` drops any alias of a State/County place whose language differs
from the place's own. -/
def pass1Keep (places : List (Nat × Place)) (a : AliasRow) : Bool :=
  match lookupPlace places a.id with
  | none => false
  | some p =>
    decide (a.nameType ≠ "S") && decide (a.nameType ≠ "V") &&
      !(decide ((p.placeType = "State" ∨ p.placeType = "County") ∧ a.language ≠ p.language))

/-- Sort key of the pass-1 SQL `order by id, language, case name_type ... end`
restricted to one place id: the alias language, then the name-type priority. -/
def aliasKey (a : AliasRow) : String × Nat := (a.language, nameTypePrio a.nameType)

/-- Lexicographic order on pass-1 sort keys. -/
def keyLE (k1 k2 : String × Nat) : Prop :=
  k1.1 < k2.1 ∨ (k1.1 = k2.1 ∧ k1.2 ≤ k2.2)

instance (k1 k2 : String × Nat) : Decidable (keyLE k1 k2) := by
  unfold keyLE; infer_instance

/-- Insert an alias row into a list sorted by `keyLE`. -/
def insertSorted (a : AliasRow) : List AliasRow → List AliasRow
  | [] => [a]
  | b :: bs => if keyLE (aliasKey a) (aliasKey b) then a :: b :: bs else b :: insertSorted a bs

/-- Insertion sort by the pass-1 SQL ordering. -/
def sortByKey (l : List AliasRow) : List AliasRow :=
  l.foldr insertSorted []

/-- The pass-1 alias rows stored under `self.aliases[pid]`: the surviving rows
for that place, in the order produced by the SQL `order by`. -/
def pass1_aliases (places : List (Nat × Place)) (rows : List AliasRow) (pid : Nat) :
    List AliasRow :=
  sortByKey (rows.filter (fun a => decide (a.id = pid) && pass1Keep places a))

/-- Body of the pass-2 loop for one candidate row (lines 121-140): map the
gazetteer language code (`KeyError` if absent); when it is not `unk`, strip
suffixes then prefixes from the alias and from the place name, falling back to
the unstripped string when stripping yields the empty string, and test
equivalence under the mapped language; when it is `unk`, test equivalence of
the raw names under the null language. -/
def pass2Step (co : Collabs) (placeName : String) (a : AliasRow) : Except Err Bool :=
  match language_codes a.language with
  | none => .error (.unknownLanguage a.language)
  | some lang =>
    if lang ≠ "unk" then
      let a2 := co.replace_prefixes (co.replace_suffixes a.name lang) lang
      let aName := if a2 ≠ "" then a2 else a.name
      let p2 := co.replace_prefixes (co.replace_suffixes placeName lang) lang
      let pName := if p2 ≠ "" then p2 else placeName
      .ok (co.equivalent pName aName (some lang))
    else .ok (co.equivalent placeName a.name none)

/-- The pass-2 scan (lines 117-140): rows joined with their place
(`join places p using(id)`), restricted to `name_type = "V"` with
`a.language = p.language`; a row is appended when `equivalent` accepts. -/
def pass2_aliases (co : Collabs) (places : List (Nat × Place)) :
    List AliasRow → Except Err (List AliasRow)
  | [] => .ok []
  | a :: rest =>
    match lookupPlace places a.id with
    | some p =>
      if a.nameType = "V" ∧ a.language = p.language then
        match pass2Step co p.name a with
        | .error e => .error e
        | .ok keep =>
          match pass2_aliases co places rest with
          | .error e => .error e
          | .ok more => .ok (if keep then a :: more else more)
      else pass2_aliases co places rest
    | none => pass2_aliases co places rest

/-- `GeoPlanetFormatter.get_aliases(pid)` after `__init__` has run both passes:
the pass-1 rows for `pid` (SQL-ordered) followed by the pass-2 variant rows for
`pid` in scan order (`defaultdict(list).append`). -/
def get_aliases (co : Collabs) (places : List (Nat × Place)) (rows : List AliasRow)
    (pid : Nat) : Except Err (List AliasRow) :=
  match pass2_aliases co places rows with
  | .error e => .error e
  | .ok vs => .ok (pass1_aliases places rows pid ++ vs.filter (fun a => a.id == pid))

/-- Per-category candidate sets of one language bucket: `defaultdict(set)`,
modeled as an insertion-ordered association list with duplicate-free values. -/
abbrev CatMap := List (String × List String)

/-- `containing_places[place_type].add(name)`: create the category on first
use, and add the name only when it is not already present. -/
def addName (cm : CatMap) (cat name : String) : CatMap :=
  match cm with
  | [] => [(cat, [name])]
  | (c, ns) :: rest =>
    if c = cat then (c, if name ∈ ns then ns else ns ++ [name]) :: rest
    else (c, ns) :: addName rest cat name

/-- `language_places`: language key (None for the default bucket) to category map. -/
abbrev LangMap := List (Option String × CatMap)

/-- `language_places.setdefault(key, defaultdict(set))` followed by
`lang_places[place_type].add(name)`. -/
def addToLang (lm : LangMap) (key : Option String) (cat name : String) : LangMap :=
  match lm with
  | [] => [(key, addName [] cat name)]
  | (k, cm) :: rest =>
    if k = key then (k, addName cm cat name) :: rest
    else (k, cm) :: addToLang rest key cat name

/-- Mutable state of the hierarchy loop of `format_postal_codes`
(lines 181-215): the `country` variable (reassigned to each place's country),
the `language` variable (the computed default language), the
`have_default_language` flag, and `language_places`. -/
structure AggState where
  country : String
  language : String
  haveDefault : Bool
  langMap : LangMap
deriving Repr

/-- Inner loop over `self.get_aliases(place_id)` (lines 201-215): an empty
alias language becomes `'UNK'`; an alias whose language equals the place's
language (the place's language not being `'UNK'`) goes to the default bucket
(key `none`), any other alias language is mapped through `language_codes`
(`KeyError` if absent) and keyed by the mapped code; the cleaned alias name is
added under the place's category. -/
def aggAliases (placeLang ptype : String) :
    List AliasRow → LangMap → Except Err LangMap
  | [], lm => .ok lm
  | a :: rest, lm =>
    let aliasLang := if a.language = "" then "UNK" else a.language
    let keyRes : Except Err (Option String) :=
      if aliasLang = placeLang ∧ placeLang ≠ "UNK" then .ok none
      else
        match language_codes aliasLang with
        | none => .error (.unknownLanguage aliasLang)
        | some l => .ok (some l)
    match keyRes with
    | .error e => .error e
    | .ok key => aggAliases placeLang ptype rest (addToLang lm key ptype (cleanup_name a.name))

/-- One iteration of the hierarchy loop (lines 185-215) for place `(pid, pl)`. -/
def aggStep (postcodeLang : String) (getAl : Nat → List AliasRow)
    (st : AggState) (pid : Nat) (pl : Place) : Except Err AggState :=
  let country := strLower pl.country
  let langRes : Except Err (String × Bool) :=
    if ¬st.haveDefault ∧ pl.language ≠ postcodeLang then
      match language_codes pl.language with
      | none => .error (.unknownLanguage pl.language)
      | some l => .ok (l, true)
    else .ok (st.language, st.haveDefault)
  match langRes with
  | .error e => .error e
  | .ok (language, haveDefault) =>
    let name := cleanup_name pl.name
    match place_types pl.placeType with
    | none => .error (.unknownPlaceType pl.placeType)
    | some ptype =>
      let lm := addToLang st.langMap none ptype name
      match aggAliases pl.language ptype (getAl pid) lm with
      | .error e => .error e
      | .ok lm2 => .ok { country := country, language := language,
                         haveDefault := haveDefault, langMap := lm2 }

/-- The hierarchy loop of `format_postal_codes` over the whole ancestor chain. -/
def aggPlaces (postcodeLang : String) (getAl : Nat → List AliasRow) :
    List (Nat × Place) → AggState → Except Err AggState
  | [], st => .ok st
  | (pid, pl) :: rest, st =>
    match aggStep postcodeLang getAl st pid pl with
    | .error e => .error e
    | .ok st2 => aggPlaces postcodeLang getAl rest st2

/-- Initial aggregation state for one postal code (lines 170-183):
`country` lowercased, `language` mapped from the postal code's language
(this is also `original_language`), no default language found yet, and
`language_places = {None: defaultdict(set)}`. -/
def initAgg (pc : PostalCode) (origLang : String) : AggState :=
  { country := strLower pc.country, language := origLang,
    haveDefault := false, langMap := [(none, [])] }

/-- Follows the spec's words (§4.4 step 2), not the code: the default language
is the mapped language of the first ancestor in walk order whose language
differs from the postal code's language, or the mapped postal-code language if
no ancestor's language differs. -/
def spec_default_language (hier : List (Nat × Place)) (pcLang : String) :
    Option String :=
  match hier.find? (fun e => e.2.language != pcLang) with
  | some e => language_codes e.2.language
  | none => language_codes pcLang

/-- `itertools.product(*all_values)`: the cartesian product of a list of lists,
first list outermost, as lists of chosen values. -/
def cartProd : List (List α) → List (List α)
  | [] => [[]]
  | l :: ls => l.flatMap (fun x => (cartProd ls).map (fun t => x :: t))

/-- `set(components) ^ component_keys` is empty: the two component dicts have
the same key set. -/
def sameKeySet (a b : List (String × String)) : Bool :=
  (a.map Prod.fst).all (fun k => (b.map Prod.fst).contains k) &&
    (b.map Prod.fst).all (fun k => (a.map Prod.fst).contains k)

/-- Condition of lines 245-247: the dropout-reduced component set keeps more
than one component and its key set differs from the original's. -/
def dropKeep (co : Collabs) (countryVar : String)
    (components : List (String × String)) : Bool :=
  let comps2 := co.dropout_components components countryVar
  decide (comps2.length > 1) && !sameKeySet comps2 components

/-- Country-name injection (lines 221-226): add the localized country name when
available; add the alpha-3 code when available and the (already substituted)
`language` variable is `None` or `'ENG'` — after the substitution of line
218-219 the variable is always a mapped string, so only the `'ENG'` comparison
remains. -/
def inject_country (co : Collabs) (countryVar language : String) (cm : CatMap) :
    CatMap :=
  let cm1 := match co.localized countryVar language with
    | some n => addName cm "country" n
    | none => cm
  match co.alpha3 countryVar with
  | some a3 => if language = "ENG" then addName cm1 "country" a3 else cm1
  | none => cm1

/-- Lines 217-250 for one entry of `language_places`: substitute
`original_language` for the `None` key, inject country names, then emit one
record per cartesian-product tuple, each followed by a dropout record when
`dropKeep` holds.  `countryVar` is the `country` variable at loop entry (the
last hierarchy place's lowercased country). -/
def bucketRecords (co : Collabs) (countryVar origLang postalCode : String)
    (tag : Bool) (key : Option String) (cm : CatMap) :
    List (String × String × String) :=
  let language := key.getD origLang
  let cm2 := inject_country co countryVar language cm
  let keys := cm2.map Prod.fst
  let tuples := cartProd (cm2.map Prod.snd)
  tuples.flatMap (fun vals =>
    let components := ("postcode", postalCode) :: keys.zip vals
    let fmtLang := if co.template_language_matters countryVar language
      then some language else none
    let r1 := (language, countryVar, co.format_address components countryVar fmtLang tag)
    if dropKeep co countryVar components then
      [r1, (language, countryVar,
        co.format_address (co.dropout_components components countryVar)
          countryVar fmtLang tag)]
    else [r1])

/-- Processing of one postal code inside `format_postal_codes` (lines 169-250):
lowercase the country, map the postal code's language (`original_language`),
walk the hierarchy, run the aggregation loop, then emit the records of every
language bucket. -/
def format_one (co : Collabs) (places : List (Nat × Place))
    (getAl : Nat → List AliasRow) (fuel : Nat) (tag : Bool) (pc : PostalCode) :
    Except Err (List (String × String × String)) :=
  match language_codes pc.language with
  | none => .error (.unknownLanguage pc.language)
  | some origLang =>
    match get_place_hierarchy places fuel pc.parent with
    | .error e => .error e
    | .ok hier =>
      match aggPlaces pc.language getAl hier (initAgg pc origLang) with
      | .error e => .error e
      | .ok st =>
        .ok (st.langMap.flatMap (fun kc =>
          bucketRecords co st.country origLang pc.code tag kc.1 kc.2))

/-- The whole generator consumed by `build_training_data`: one postal code
after another; an uncaught exception on any record aborts the run. -/
def format_postal_codes (co : Collabs) (places : List (Nat × Place))
    (getAl : Nat → List AliasRow) (fuel : Nat) (tag : Bool) :
    List PostalCode → Except Err (List (String × String × String))
  | [] => .ok []
  | pc :: rest =>
    match format_one co places getAl fuel tag pc with
    | .error e => .error e
    | .ok rs =>
      match format_postal_codes co places getAl fuel tag rest with
      | .error e => .error e
      | .ok more => .ok (rs ++ more)

/-- Candidate names of one bucket and category in an aggregation state. -/
def namesIn (st : AggState) (key : Option String) (cat : String) : List String :=
  match st.langMap.find? (fun kc => kc.1 == key) with
  | some kc =>
    match kc.2.find? (fun cn => cn.1 == cat) with
    | some cn => cn.2
    | none => []
  | none => []

/-- Well-formedness of one category map: every candidate list is duplicate-free
and every candidate is free of leading/trailing stripped characters. -/
def WFCat (cm : CatMap) : Prop :=
  ∀ cn ∈ cm, (cn.2 : List String).Nodup ∧ ∀ n ∈ cn.2, noEdgeStrip n = true

/-- Well-formedness of a whole language map. -/
def WFLang (lm : LangMap) : Prop := ∀ kc ∈ lm, WFCat kc.2

/-- Trivial collaborators: no localized names, no alpha-3, template language
never matters, constant formatter, identity dropout, identity affix stripping,
equivalence always false. -/
def coPlain : Collabs :=
  { localized := fun _ _ => none
    alpha3 := fun _ => none
    template_language_matters := fun _ _ => false
    format_address := fun _ _ _ _ => "A"
    dropout_components := fun comps _ => comps
    replace_prefixes := fun n _ => n
    replace_suffixes := fun n _ => n
    equivalent := fun _ _ _ => false }

/-- Empty alias index. -/
def ga0 : Nat → List AliasRow := fun _ => []

/-- C1 store: a French-language Town under the root, with an English-language
postal code attached to it. -/
def cpl1 : Place := { country := "fr", name := "Ville", language := "FRE",
                      placeType := "Town", parent := 1 }

def cplaces1 : List (Nat × Place) := [(2, cpl1)]

def cpc1 : PostalCode := { id := 1, country := "FR", code := "75001",
                           language := "ENG", placeType := "Zip", parent := 2 }

/-- C2/C3 store: an English-language Town. -/
def cplTown : Place := { country := "us", name := "Foo", language := "ENG",
                         placeType := "Town", parent := 1 }

def cplaces23 : List (Nat × Place) := [(10, cplTown)]

/-- A colloquial alias of the Town, in the Town's own language. -/
def crowS : AliasRow := { id := 10, name := "The Big F", nameType := "S",
                          language := "ENG" }

/-- An abbreviated alias of the Town (pass-1 survivor, priority 4). -/
def crowA : AliasRow := { id := 10, name := "FA", nameType := "A",
                          language := "ENG" }

/-- A variant alias of the Town in the Town's language (pass-2 candidate,
priority 3). -/
def crowV : AliasRow := { id := 10, name := "Foo Town", nameType := "V",
                          language := "ENG" }

/-- Collaborators whose equivalence tester accepts everything. -/
def coEquivTrue : Collabs :=
  { coPlain with equivalent := fun _ _ _ => true }

/-- C4 store: a United-States Town, with a country-name resolver that knows the
localized name and the alpha-3 code of "us". -/
def cpl4 : Place := { country := "us", name := "Springfield", language := "ENG",
                      placeType := "Town", parent := 1 }

def cplaces4 : List (Nat × Place) := [(2, cpl4)]

def cpc4 : PostalCode := { id := 1, country := "US", code := "62701",
                           language := "ENG", placeType := "Zip", parent := 2 }

def co4 : Collabs :=
  { coPlain with
    localized := fun c l => if c == "us" && l == "en" then some "United States" else none
    alpha3 := fun c => if c == "us" then some "USA" else none
    format_address := fun comps _ _ _ => String.intercalate "|" (comps.map Prod.snd) }

/-- C5 collaborators: the dropout selector always removes the `state`
component. -/
def co5 : Collabs :=
  { coPlain with
    dropout_components := fun comps _ => comps.filter (fun c => !(c.1 == "state")) }

/-- C5 bucket: two city candidates and one state candidate. -/
def cm5 : CatMap := [("city", ["A", "B"]), ("state", ["S"])]

/-- C6 store: place 3 resolves, place 99 does not. -/
def cplaces6 : List (Nat × Place) :=
  [(3, { country := "us", name := "Goodtown", language := "ENG",
         placeType := "Town", parent := 1 })]

/-- A postal code whose container place id 99 is absent from the store. -/
def pcBad : PostalCode := { id := 1, country := "US", code := "00000",
                            language := "ENG", placeType := "Zip", parent := 99 }

/-- A postal code whose hierarchy resolves. -/
def pcGood : PostalCode := { id := 2, country := "US", code := "11111",
                             language := "ENG", placeType := "Zip", parent := 3 }

/-- C7 store with a parent cycle 3 → 4 → 3 that avoids both the sentinel 1 and
the leaf 2. -/
def cycPlaces : List (Nat × Place) :=
  [(2, { country := "us", name := "Leaf", language := "ENG",
         placeType := "Town", parent := 3 }),
   (3, { country := "us", name := "Mid", language := "ENG",
         placeType := "County", parent := 4 }),
   (4, { country := "us", name := "Top", language := "ENG",
         placeType := "State", parent := 3 })]

/-- C7 witness store: 2 → 3 → 1, an acyclic chain to the sentinel. -/
def okPlaces : List (Nat × Place) :=
  [(2, { country := "us", name := "Leaf", language := "ENG",
         placeType := "Town", parent := 3 }),
   (3, { country := "us", name := "Mid", language := "ENG",
         placeType := "State", parent := 1 })]

/-- C8 store: a Town whose raw name consists entirely of stripped characters. -/
def cpl8 : Place := { country := "us", name := " , ", language := "ENG",
                      placeType := "Town", parent := 1 }

def cpc8 : PostalCode := { id := 1, country := "US", code := "99999",
                           language := "ENG", placeType := "Zip", parent := 2 }

/-- C9 store: a place and a variant alias both of unknown language. -/
def cpl9 : Place := { country := "us", name := "Nameville", language := "UNK",
                      placeType := "Town", parent := 1 }

def cplaces9 : List (Nat × Place) := [(7, cpl9)]

def crow9 : AliasRow := { id := 7, name := "Alias Town", nameType := "V",
                          language := "UNK" }

/-- Collaborators whose equivalence tester accepts exactly the null-language
calls. -/
def coNullEquiv : Collabs :=
  { coPlain with equivalent := fun _ _ l => l.isNone }

/-- The aggregation state produced for the C8 counterexample store. -/
def cst8 : AggState :=
  { country := "us", language := "en", haveDefault := false,
    langMap := [(none, [("city", [""])])] }

theorem head_dropWhile_false (p : Char → Bool) (l : List Char) (c : Char)
    (h : (l.dropWhile p).head? = some c) : p c = false := by
  have h2 := List.head?_dropWhile_not p l
  rw [h] at h2
  exact h2

theorem dropWhile_fix_of_head (p : Char → Bool) (l : List Char)
    (h : ∀ c, l.head? = some c → p c = false) : l.dropWhile p = l := by
  cases l with
  | nil => rfl
  | cons a as =>
    have ha : p a = false := h a rfl
    simp [List.dropWhile_cons, ha]

theorem dropWhile_dropWhile (p : Char → Bool) (l : List Char) :
    (l.dropWhile p).dropWhile p = l.dropWhile p :=
  dropWhile_fix_of_head p _ (fun c hc => head_dropWhile_false p l c hc)

theorem cleanup_data_eq (s : String) :
    (cleanup_name s).data =
      ((s.data.dropWhile stripChars).reverse.dropWhile stripChars).reverse := rfl

theorem cleanup_revhead (s : String) (c : Char)
    (h : (cleanup_name s).data.reverse.head? = some c) : stripChars c = false := by
  rw [cleanup_data_eq, List.reverse_reverse] at h
  exact head_dropWhile_false stripChars _ c h

theorem cleanup_head (s : String) (c : Char)
    (h : (cleanup_name s).data.head? = some c) : stripChars c = false := by
  have hdec :
      s.data.dropWhile stripChars =
        (cleanup_name s).data ++
          ((s.data.dropWhile stripChars).reverse.takeWhile stripChars).reverse := by
    rw [cleanup_data_eq]
    have h0 :
        (s.data.dropWhile stripChars).reverse.takeWhile stripChars ++
          (s.data.dropWhile stripChars).reverse.dropWhile stripChars =
          (s.data.dropWhile stripChars).reverse :=
      List.takeWhile_append_dropWhile stripChars _
    calc s.data.dropWhile stripChars
        = (s.data.dropWhile stripChars).reverse.reverse := by rw [List.reverse_reverse]
      _ = ((s.data.dropWhile stripChars).reverse.takeWhile stripChars ++
            (s.data.dropWhile stripChars).reverse.dropWhile stripChars).reverse := by
            rw [h0]
      _ = ((s.data.dropWhile stripChars).reverse.dropWhile stripChars).reverse ++
            ((s.data.dropWhile stripChars).reverse.takeWhile stripChars).reverse := by
            rw [List.reverse_append]
  cases hres : (cleanup_name s).data with
  | nil => rw [hres] at h; simp at h
  | cons c0 rest =>
    rw [hres] at h
    simp at h
    rw [hres] at hdec
    have hd1 : (s.data.dropWhile stripChars).head? = some c0 := by
      rw [hdec]; rfl
    rw [← h]
    exact head_dropWhile_false stripChars s.data c0 hd1

theorem cleanup_fix (s : String) : cleanup_name (cleanup_name s) = cleanup_name s := by
  have h1 : (cleanup_name s).data.dropWhile stripChars = (cleanup_name s).data :=
    dropWhile_fix_of_head stripChars _ (fun c hc => cleanup_head s c hc)
  have h2 : (cleanup_name s).data.reverse.dropWhile stripChars =
      (cleanup_name s).data.reverse := by
    rw [cleanup_data_eq, List.reverse_reverse]
    exact dropWhile_dropWhile stripChars _
  show String.mk _ = cleanup_name s
  rw [h1, h2, List.reverse_reverse]

theorem noEdgeStrip_cleanup (s : String) : noEdgeStrip (cleanup_name s) = true := by
  unfold noEdgeStrip
  have hh : (cleanup_name s).data.head?.all (fun c => !stripChars c) = true := by
    cases hc : (cleanup_name s).data.head? with
    | none => rfl
    | some c => simp [Option.all, cleanup_head s c hc]
  have ht : (cleanup_name s).data.reverse.head?.all (fun c => !stripChars c) = true := by
    cases hc : (cleanup_name s).data.reverse.head? with
    | none => rfl
    | some c => simp [Option.all, cleanup_revhead s c hc]
  rw [hh, ht]
  rfl

/-- C10: `cleanup_name` is idempotent, and its output never begins or ends with
a space, comma, or hyphen. -/
theorem cleanup_name_idem_stripped (s : String) :
    cleanup_name (cleanup_name s) = cleanup_name s ∧
      noEdgeStrip (cleanup_name s) = true :=
  ⟨cleanup_fix s, noEdgeStrip_cleanup s⟩

theorem keyLE_total (k1 k2 : String × Nat) : keyLE k1 k2 ∨ keyLE k2 k1 := by
  rcases lt_trichotomy k1.1 k2.1 with h | h | h
  · exact Or.inl (Or.inl h)
  · rcases Nat.le_total k1.2 k2.2 with h2 | h2
    · exact Or.inl (Or.inr ⟨h, h2⟩)
    · exact Or.inr (Or.inr ⟨h.symm, h2⟩)
  · exact Or.inr (Or.inl h)

theorem keyLE_trans {k1 k2 k3 : String × Nat} (h1 : keyLE k1 k2) (h2 : keyLE k2 k3) :
    keyLE k1 k3 := by
  rcases h1 with h1 | ⟨e1, l1⟩
  · rcases h2 with h2 | ⟨e2, l2⟩
    · exact Or.inl (h1.trans h2)
    · exact Or.inl (by rw [← e2]; exact h1)
  · rcases h2 with h2 | ⟨e2, l2⟩
    · exact Or.inl (by rw [e1]; exact h2)
    · exact Or.inr ⟨e1.trans e2, l1.trans l2⟩

theorem mem_insertSorted (a x : AliasRow) :
    ∀ l : List AliasRow, x ∈ insertSorted a l ↔ x = a ∨ x ∈ l := by
  intro l
  induction l with
  | nil => simp [insertSorted]
  | cons b bs ih =>
    rw [insertSorted]
    by_cases h : keyLE (aliasKey a) (aliasKey b)
    · rw [if_pos h]
      simp only [List.mem_cons]
    · rw [if_neg h]
      simp only [List.mem_cons, ih]
      tauto

theorem mem_sortByKey (x : AliasRow) :
    ∀ l : List AliasRow, x ∈ sortByKey l ↔ x ∈ l := by
  intro l
  induction l with
  | nil => simp [sortByKey]
  | cons b bs ih =>
    show x ∈ insertSorted b (sortByKey bs) ↔ _
    rw [mem_insertSorted]
    simp only [List.mem_cons, ih]

theorem pairwise_insertSorted (a : AliasRow) :
    ∀ l : List AliasRow,
      l.Pairwise (fun x y => keyLE (aliasKey x) (aliasKey y)) →
        (insertSorted a l).Pairwise (fun x y => keyLE (aliasKey x) (aliasKey y)) := by
  intro l
  induction l with
  | nil => intro _; simp [insertSorted]
  | cons b bs ih =>
    intro hp
    rw [List.pairwise_cons] at hp
    rw [insertSorted]
    by_cases h : keyLE (aliasKey a) (aliasKey b)
    · rw [if_pos h, List.pairwise_cons]
      constructor
      · intro x hx
        rcases List.mem_cons.mp hx with rfl | hx2
        · exact h
        · exact keyLE_trans h (hp.1 x hx2)
      · rw [List.pairwise_cons]; exact hp
    · have hba : keyLE (aliasKey b) (aliasKey a) := (keyLE_total _ _).resolve_left h
      rw [if_neg h, List.pairwise_cons]
      constructor
      · intro x hx
        rcases (mem_insertSorted a x bs).mp hx with rfl | hx2
        · exact hba
        · exact hp.1 x hx2
      · exact ih hp.2

theorem sortByKey_pairwise (l : List AliasRow) :
    (sortByKey l).Pairwise (fun x y => keyLE (aliasKey x) (aliasKey y)) := by
  induction l with
  | nil => exact List.Pairwise.nil
  | cons b bs ih => exact pairwise_insertSorted b _ ih

theorem pass1Keep_iff (places : List (Nat × Place)) (a : AliasRow) :
    pass1Keep places a = true ↔
      ∃ p, lookupPlace places a.id = some p ∧ a.nameType ≠ "S" ∧ a.nameType ≠ "V" ∧
        ¬((p.placeType = "State" ∨ p.placeType = "County") ∧ a.language ≠ p.language) := by
  unfold pass1Keep
  cases h : lookupPlace places a.id with
  | none => simp
  | some p =>
    simp only [Bool.and_eq_true, decide_eq_true_eq, Bool.not_eq_true',
      decide_eq_false_iff_not, Option.some.injEq]
    constructor
    · rintro ⟨⟨h1, h2⟩, h3⟩
      exact ⟨p, rfl, h1, h2, h3⟩
    · rintro ⟨p', hp', h1, h2, h3⟩
      cases hp'
      exact ⟨⟨h1, h2⟩, h3⟩

/-- C2 amended: pass 1 keeps exactly the alias rows of the given place whose
place id resolves, whose name_type is neither Colloquial ("S") nor Variant
("V"), and which are not aliases of a State/County place in a language
differing from the place's own.  In particular every Colloquial and Variant
alias is dropped by pass 1, whatever its place's type or language. -/
theorem pass1_mem_iff (places : List (Nat × Place)) (rows : List AliasRow)
    (pid : Nat) (a : AliasRow) :
    a ∈ pass1_aliases places rows pid ↔
      a ∈ rows ∧ a.id = pid ∧
        ∃ p, lookupPlace places a.id = some p ∧ a.nameType ≠ "S" ∧ a.nameType ≠ "V" ∧
          ¬((p.placeType = "State" ∨ p.placeType = "County") ∧ a.language ≠ p.language) := by
  unfold pass1_aliases
  rw [mem_sortByKey, List.mem_filter]
  simp only [Bool.and_eq_true, decide_eq_true_eq, pass1Keep_iff, and_assoc]

/-- C2 counterexample: a Colloquial alias of a Town, in the Town's own
language, is nevertheless dropped by pass 1 (the claim says it passes
through unaffected). -/
theorem pass1_drops_same_language_colloquial :
    lookupPlace cplaces23 10 = some cplTown ∧ cplTown.placeType = "Town" ∧
      crowS.nameType = "S" ∧ crowS.language = cplTown.language ∧
      pass1_aliases cplaces23 [crowS] 10 = [] ∧
      get_aliases coPlain cplaces23 [crowS] 10 = .ok [] :=
  ⟨rfl, rfl, rfl, rfl, rfl, rfl⟩

/-- C3 amended: `get_aliases` returns the pass-1 survivors sorted by alias
language first and name-type priority second, followed by the pass-2 surviving
Variant rows in scan order; the combined result is not globally sorted by
name-type priority. -/
theorem get_aliases_pass1_sorted_append_pass2 (co : Collabs)
    (places : List (Nat × Place)) (rows : List AliasRow) (pid : Nat)
    (vs : List AliasRow) (h : pass2_aliases co places rows = .ok vs) :
    (pass1_aliases places rows pid).Pairwise
        (fun x y => keyLE (aliasKey x) (aliasKey y)) ∧
      get_aliases co places rows pid =
        .ok (pass1_aliases places rows pid ++ vs.filter (fun a => a.id == pid)) := by
  constructor
  · exact sortByKey_pairwise _
  · unfold get_aliases
    rw [h]

theorem get_aliases_pass1_sorted_append_pass2_witness :
    pass2_aliases coPlain cplaces23 [crowA] = .ok [] ∧
      ((pass1_aliases cplaces23 [crowA] 10).Pairwise
          (fun x y => keyLE (aliasKey x) (aliasKey y)) ∧
        get_aliases coPlain cplaces23 [crowA] 10 =
          .ok (pass1_aliases cplaces23 [crowA] 10 ++
            ([] : List AliasRow).filter (fun a => a.id == 10))) :=
  ⟨rfl, get_aliases_pass1_sorted_append_pass2 coPlain cplaces23 [crowA] 10 [] rfl⟩

/-- C3 counterexample: an Abbreviated alias (priority 4) survives pass 1 and a
Variant alias (priority 3) survives pass 2; `get_aliases` returns the Variant
after the Abbreviated, so the combined result is not sorted by name-type
priority. -/
theorem get_aliases_not_priority_sorted :
    get_aliases coEquivTrue cplaces23 [crowA, crowV] 10 = .ok [crowA, crowV] ∧
      nameTypePrio crowV.nameType < nameTypePrio crowA.nameType :=
  ⟨rfl, by decide⟩

/-- C9: for a Variant alias whose language equals its place's language and is
the unknown sentinel "UNK", pass 2 maps the language to the null language,
applies no affix stripping (the outcome does not depend on the affix
collaborators at all), and keeps the alias exactly when the equivalence tester
accepts the raw place name and raw alias name under the null language. -/
theorem pass2_unknown_language_raw_equivalence (co : Collabs)
    (places : List (Nat × Place)) (a : AliasRow) (p : Place)
    (hl : a.language = "UNK") (hp : lookupPlace places a.id = some p)
    (hpl : p.language = "UNK") (hv : a.nameType = "V") :
    pass2Step co p.name a = .ok (co.equivalent p.name a.name none) ∧
      pass2_aliases co places [a] =
        .ok (if co.equivalent p.name a.name none then [a] else []) := by
  have hstep : pass2Step co p.name a = .ok (co.equivalent p.name a.name none) := by
    unfold pass2Step
    rw [hl]
    rfl
  refine ⟨hstep, ?_⟩
  simp only [pass2_aliases, hp]
  rw [if_pos ⟨hv, hl.trans hpl.symm⟩, hstep]

theorem pass2_unknown_language_raw_equivalence_witness :
    crow9.language = "UNK" ∧ lookupPlace cplaces9 7 = some cpl9 ∧
      cpl9.language = "UNK" ∧ crow9.nameType = "V" ∧
      (pass2Step coNullEquiv cpl9.name crow9 =
          .ok (coNullEquiv.equivalent cpl9.name crow9.name none) ∧
        pass2_aliases coNullEquiv cplaces9 [crow9] =
          .ok (if coNullEquiv.equivalent cpl9.name crow9.name none then [crow9] else [])) :=
  ⟨rfl, rfl, rfl, rfl,
    pass2_unknown_language_raw_equivalence coNullEquiv cplaces9 crow9 cpl9 rfl rfl rfl rfl⟩

theorem length_flatMap_one_or_two {α β : Type _} (q : α → Bool) (h : α → List β)
    (hh : ∀ x, (h x).length = if q x then 2 else 1) :
    ∀ l : List α, (l.flatMap h).length = l.length + l.countP q := by
  intro l
  induction l with
  | nil => rfl
  | cons x xs ih =>
    rw [List.flatMap_cons, List.length_append, ih, hh x, List.countP_cons]
    cases hq : q x <;> simp [hq] <;> omega

theorem cartProd_length {α : Type _} (ls : List (List α)) :
    (cartProd ls).length = (ls.map List.length).prod := by
  induction ls with
  | nil => rfl
  | cons l ls ih =>
    simp only [cartProd, List.map_cons, List.prod_cons]
    have h : ∀ t : List α,
        (t.flatMap (fun x => (cartProd ls).map (fun u => x :: u))).length =
          t.length * (cartProd ls).length := by
      intro t
      induction t with
      | nil => simp
      | cons a t iht =>
        rw [List.flatMap_cons, List.length_append, iht, List.length_map,
          List.length_cons, Nat.succ_mul, Nat.add_comm]
    rw [h l, ih]

/-- C5 amended: a bucket emits one record per cartesian-product tuple plus one
extra dropout record for each tuple whose dropout-reduced components keep more
than one entry under a different key set, so the total is the product of the
post-injection category sizes plus a dropout count that is at most that
product (up to one dropout record per tuple, not per bucket). -/
theorem bucketRecords_length_formula (co : Collabs)
    (countryVar origLang postalCode : String) (tag : Bool) (key : Option String)
    (cm cm2 : CatMap)
    (hcm : inject_country co countryVar (key.getD origLang) cm = cm2) :
    (bucketRecords co countryVar origLang postalCode tag key cm).length =
        (cm2.map (fun cn => cn.2.length)).prod +
          (cartProd (cm2.map Prod.snd)).countP
            (fun vals => dropKeep co countryVar
              (("postcode", postalCode) :: (cm2.map Prod.fst).zip vals)) ∧
      (cartProd (cm2.map Prod.snd)).countP
          (fun vals => dropKeep co countryVar
            (("postcode", postalCode) :: (cm2.map Prod.fst).zip vals)) ≤
        (cm2.map (fun cn => cn.2.length)).prod := by
  have hlen : (bucketRecords co countryVar origLang postalCode tag key cm).length =
      (cartProd (cm2.map Prod.snd)).length +
        (cartProd (cm2.map Prod.snd)).countP
          (fun vals => dropKeep co countryVar
            (("postcode", postalCode) :: (cm2.map Prod.fst).zip vals)) := by
    simp only [bucketRecords, hcm]
    rw [length_flatMap_one_or_two
      (fun vals => dropKeep co countryVar
        (("postcode", postalCode) :: (cm2.map Prod.fst).zip vals))]
    intro x
    cases hq : dropKeep co countryVar
        (("postcode", postalCode) :: (cm2.map Prod.fst).zip x) <;> simp [hq]
  have hprod : (cartProd (cm2.map Prod.snd)).length =
      (cm2.map (fun cn => cn.2.length)).prod := by
    rw [cartProd_length, List.map_map]
    rfl
  constructor
  · rw [hlen, hprod]
  · calc (cartProd (cm2.map Prod.snd)).countP
          (fun vals => dropKeep co countryVar
            (("postcode", postalCode) :: (cm2.map Prod.fst).zip vals)) ≤
        (cartProd (cm2.map Prod.snd)).length := List.countP_le_length _
    _ = (cm2.map (fun cn => cn.2.length)).prod := hprod

theorem bucketRecords_length_formula_witness :
    inject_country co5 "us" "en" cm5 = cm5 ∧
      ((bucketRecords co5 "us" "en" "11111" true none cm5).length =
          (cm5.map (fun cn => cn.2.length)).prod +
            (cartProd (cm5.map Prod.snd)).countP
              (fun vals => dropKeep co5 "us"
                (("postcode", "11111") :: (cm5.map Prod.fst).zip vals)) ∧
        (cartProd (cm5.map Prod.snd)).countP
            (fun vals => dropKeep co5 "us"
              (("postcode", "11111") :: (cm5.map Prod.fst).zip vals)) ≤
          (cm5.map (fun cn => cn.2.length)).prod) :=
  ⟨rfl, bucketRecords_length_formula co5 "us" "en" "11111" true none cm5 cm5 rfl⟩

/-- C5 counterexample: with two product tuples and a dropout selector that
removes the state component from every tuple, the bucket emits 4 records while
the product of its category sizes is 2 — two dropout records in one bucket,
not at most one. -/
theorem bucketRecords_two_dropouts :
    (bucketRecords co5 "us" "en" "11111" true none cm5).length = 4 ∧
      ((inject_country co5 "us" "en" cm5).map (fun cn => cn.2.length)).prod = 2 ∧
      ¬((4 : Nat) = 2 ∨ (4 : Nat) = 2 + 1) :=
  ⟨rfl, rfl, by decide⟩

/-- C6 amended: an uncaught error while processing one postal code aborts the
whole batch — no records of any later postal code are produced. -/
theorem format_postal_codes_error_propagates (co : Collabs)
    (places : List (Nat × Place)) (getAl : Nat → List AliasRow) (fuel : Nat)
    (tag : Bool) (pc : PostalCode) (rest : List PostalCode) (e : Err)
    (h : format_one co places getAl fuel tag pc = .error e) :
    format_postal_codes co places getAl fuel tag (pc :: rest) = .error e := by
  simp only [format_postal_codes, h]

theorem format_postal_codes_error_propagates_witness :
    format_one coPlain cplaces6 ga0 10 true pcBad = .error (.notFound 99) ∧
      format_postal_codes coPlain cplaces6 ga0 10 true [pcBad, pcGood] =
        .error (.notFound 99) :=
  ⟨rfl, format_postal_codes_error_propagates coPlain cplaces6 ga0 10 true pcBad
    [pcGood] (.notFound 99) rfl⟩

/-- C6 counterexample: the first postal code's unresolved container place
aborts the whole batch, although the second postal code alone processes fine —
the error is not isolated to the failing record. -/
theorem batch_aborts_on_first_error :
    format_postal_codes coPlain cplaces6 ga0 10 true [pcBad, pcGood] =
        .error (.notFound 99) ∧
      format_postal_codes coPlain cplaces6 ga0 10 true [pcGood] =
        .ok [("en", "us", "A")] :=
  ⟨rfl, rfl⟩

/-- C1 (code bug): for an English-language postal code whose first ancestor is
a French-language Town, the spec's default language is "fr", and the
aggregation loop even computes "fr" into its language variable, yet the emitted
default-bucket record is labeled "en" — the mapped postcode language
(`original_language`) — because the bucket loop of line 217 rebinds `language`
before line 219 can use the computed default. -/
theorem format_one_default_label_uses_postcode_language :
    format_one coPlain cplaces1 ga0 10 true cpc1 = .ok [("en", "fr", "A")] ∧
      (aggPlaces "ENG" ga0 [(2, cpl1)] (initAgg cpc1 "en")).map AggState.language =
        .ok "fr" ∧
      spec_default_language [(2, cpl1)] "ENG" = some "fr" ∧
      ("en" : String) ≠ "fr" :=
  ⟨rfl, rfl, rfl, by decide⟩

/-- C4 (code bug): with the alpha-3 code "USA" available for country "us", the
English-language bucket never receives it: after the substitution of lines
218-219 the `language` variable is a mapped two-letter code (here "en"), so
the `language in (None, 'ENG')` test of line 225 never holds.  Only the
localized name is injected and a single record is emitted, without "USA". -/
theorem alpha3_never_injected_concrete :
    co4.alpha3 "us" = some "USA" ∧
      inject_country co4 "us" "en" [("city", ["Springfield"])] =
        [("city", ["Springfield"]), ("country", ["United States"])] ∧
      format_one co4 cplaces4 ga0 10 true cpc4 =
        .ok [("en", "us", "62701|Springfield|United States")] :=
  ⟨rfl, rfl, rfl⟩

theorem WFCat_addName (cat name : String) (hn : noEdgeStrip name = true) :
    ∀ cm : CatMap, WFCat cm → WFCat (addName cm cat name) := by
  intro cm
  induction cm with
  | nil =>
    intro _ cn hcn
    simp only [addName, List.mem_singleton] at hcn
    subst hcn
    refine ⟨List.nodup_singleton _, ?_⟩
    intro n hn2
    simp only [List.mem_singleton] at hn2
    subst hn2
    exact hn
  | cons hd rest ih =>
    intro hwf
    obtain ⟨c0, ns0⟩ := hd
    rw [addName]
    by_cases hc : c0 = cat
    · rw [if_pos hc]
      intro cn hcn
      rcases List.mem_cons.mp hcn with rfl | hmem
      · have hhd := hwf (c0, ns0) (List.mem_cons_self _ _)
        by_cases hm : name ∈ ns0
        · simp only [if_pos hm]
          exact hhd
        · simp only [if_neg hm]
          constructor
          · rw [List.nodup_append]
            refine ⟨hhd.1, List.nodup_singleton _, ?_⟩
            intro x hx hx2
            simp only [List.mem_singleton] at hx2
            subst hx2
            exact hm hx
          · intro n hn2
            rcases List.mem_append.mp hn2 with h1 | h1
            · exact hhd.2 n h1
            · simp only [List.mem_singleton] at h1
              subst h1
              exact hn
      · exact hwf cn (List.mem_cons_of_mem _ hmem)
    · rw [if_neg hc]
      intro cn hcn
      rcases List.mem_cons.mp hcn with rfl | hmem
      · exact hwf (c0, ns0) (List.mem_cons_self _ _)
      · exact ih (fun x hx => hwf x (List.mem_cons_of_mem _ hx)) cn hmem

theorem WFLang_addToLang (key : Option String) (cat name : String)
    (hn : noEdgeStrip name = true) :
    ∀ lm : LangMap, WFLang lm → WFLang (addToLang lm key cat name) := by
  intro lm
  induction lm with
  | nil =>
    intro _ kc hkc
    simp only [addToLang, List.mem_singleton] at hkc
    subst hkc
    exact WFCat_addName cat name hn [] (fun cn hcn => absurd hcn (List.not_mem_nil _))
  | cons hd rest ih =>
    intro hwf
    obtain ⟨k0, cm0⟩ := hd
    rw [addToLang]
    by_cases hk : k0 = key
    · rw [if_pos hk]
      intro kc hkc
      rcases List.mem_cons.mp hkc with rfl | hmem
      · exact WFCat_addName cat name hn cm0 (hwf (k0, cm0) (List.mem_cons_self _ _))
      · exact hwf kc (List.mem_cons_of_mem _ hmem)
    · rw [if_neg hk]
      intro kc hkc
      rcases List.mem_cons.mp hkc with rfl | hmem
      · exact hwf (k0, cm0) (List.mem_cons_self _ _)
      · exact ih (fun x hx => hwf x (List.mem_cons_of_mem _ hx)) kc hmem

theorem WFLang_aggAliases (placeLang ptype : String) :
    ∀ (rows : List AliasRow) (lm lm2 : LangMap),
      aggAliases placeLang ptype rows lm = .ok lm2 → WFLang lm → WFLang lm2 := by
  intro rows
  induction rows with
  | nil =>
    intro lm lm2 h hwf
    simp only [aggAliases] at h
    cases h
    exact hwf
  | cons a rest ih =>
    intro lm lm2 h hwf
    simp only [aggAliases] at h
    split at h
    · cases h
    · exact ih _ _ h (WFLang_addToLang _ ptype (cleanup_name a.name)
        (noEdgeStrip_cleanup _) _ hwf)

theorem WFLang_aggStep (postcodeLang : String) (getAl : Nat → List AliasRow)
    (st st2 : AggState) (pid : Nat) (pl : Place)
    (h : aggStep postcodeLang getAl st pid pl = .ok st2)
    (hwf : WFLang st.langMap) : WFLang st2.langMap := by
  simp only [aggStep] at h
  split at h
  · cases h
  · split at h
    · cases h
    · rename_i ptype hpt
      split at h
      · cases h
      · rename_i lm2 hagg
        cases h
        exact WFLang_aggAliases pl.language ptype (getAl pid) _ lm2 hagg
          (WFLang_addToLang none ptype (cleanup_name pl.name)
            (noEdgeStrip_cleanup _) _ hwf)

theorem WFLang_aggPlaces (postcodeLang : String) (getAl : Nat → List AliasRow) :
    ∀ (hier : List (Nat × Place)) (st st2 : AggState),
      aggPlaces postcodeLang getAl hier st = .ok st2 → WFLang st.langMap →
        WFLang st2.langMap := by
  intro hier
  induction hier with
  | nil =>
    intro st st2 h hwf
    simp only [aggPlaces] at h
    cases h
    exact hwf
  | cons e rest ih =>
    intro st st2 h hwf
    obtain ⟨pid, pl⟩ := e
    rw [aggPlaces] at h
    split at h
    · cases h
    · rename_i stMid hstep
      exact ih _ _ h (WFLang_aggStep postcodeLang getAl st stMid pid pl hstep hwf)

/-- C8 amended: every candidate name stored by the aggregation loop is a
cleaned string — no leading or trailing space, comma, or hyphen, though
possibly empty — and every category's candidate list is duplicate-free; the
raw name " Paris, " is stored as "Paris".  (The claim's "non-empty" part is
refuted by the counterexample; the country names injected later by
`inject_country` are collaborator output added verbatim.) -/
theorem aggregate_names_cleaned_nodup (postcodeLang : String)
    (getAl : Nat → List AliasRow) (hier : List (Nat × Place)) (pc : PostalCode)
    (origLang : String) (st : AggState)
    (h : aggPlaces postcodeLang getAl hier (initAgg pc origLang) = .ok st) :
    WFLang st.langMap ∧ cleanup_name " Paris, " = "Paris" := by
  constructor
  · refine WFLang_aggPlaces postcodeLang getAl hier _ st h ?_
    intro kc hkc
    simp only [initAgg, List.mem_singleton] at hkc
    subst hkc
    intro cn hcn
    exact absurd hcn (List.not_mem_nil _)
  · rfl

theorem aggregate_names_cleaned_nodup_witness :
    aggPlaces "ENG" ga0 [(2, cpl4)] (initAgg cpc4 "en") =
        .ok { country := "us", language := "en", haveDefault := false,
              langMap := [(none, [("city", ["Springfield"])])] } ∧
      (WFLang [(none, [("city", ["Springfield"])])] ∧
        cleanup_name " Paris, " = "Paris") :=
  ⟨rfl, aggregate_names_cleaned_nodup "ENG" ga0 [(2, cpl4)] cpc4 "en" _ rfl⟩

/-- C8 counterexample: a Town whose raw name " , " consists only of stripped
characters is stored as the empty string, so a candidate set of the default
bucket contains an empty — hence not non-empty — name. -/
theorem aggregate_adds_empty_name :
    aggPlaces "ENG" ga0 [(2, cpl8)] (initAgg cpc8 "en") = .ok cst8 ∧
      "" ∈ namesIn cst8 none "city" :=
  ⟨rfl, by decide⟩

theorem chainIter_succ (places : List (Nat × Place)) (orig m : Nat) :
    chainIter places orig (m + 1) =
      (chainIter places orig m).bind (fun v => parentOf places v) := rfl

theorem chainIter_shift (places : List (Nat × Place)) (orig i j : Nat)
    (h : chainIter places orig i = chainIter places orig j) :
    ∀ m, chainIter places orig (i + m) = chainIter places orig (j + m) := by
  intro m
  induction m with
  | zero => simpa using h
  | succ m ih =>
    show chainIter places orig ((i + m) + 1) = chainIter places orig ((j + m) + 1)
    rw [chainIter_succ, chainIter_succ, ih]

theorem chainIter_isSome_down (places : List (Nat × Place)) (orig m : Nat) :
    ∀ k, (chainIter places orig (m + k)).isSome → (chainIter places orig m).isSome := by
  intro k
  induction k with
  | zero => intro h; simpa using h
  | succ k ih =>
    intro h
    apply ih
    rw [show m + (k + 1) = (m + k) + 1 from rfl, chainIter_succ] at h
    cases hc : chainIter places orig (m + k) with
    | none => rw [hc] at h; simp at h
    | some v => simp

theorem chainIter_isSome_of_le (places : List (Nat × Place)) (orig m t : Nat)
    (hmt : m ≤ t) (h : (chainIter places orig t).isSome) :
    (chainIter places orig m).isSome := by
  obtain ⟨k, rfl⟩ := Nat.le.dest hmt
  exact chainIter_isSome_down places orig m k h

theorem chainStop_congr (places : List (Nat × Place)) (orig i j : Nat)
    (h : chainIter places orig i = chainIter places orig j) :
    chainStop places orig i = chainStop places orig j := by
  unfold chainStop
  rw [h]

theorem chain_inj (places : List (Nat × Place)) (orig t : Nat)
    (hstop : chainStop places orig t = true)
    (hmin : ∀ m, m < t → 1 ≤ m → chainStop places orig m = false)
    (i j x : Nat) (hij : i < j) (hjt : j < t)
    (hi : chainIter places orig i = some x)
    (hj : chainIter places orig j = some x) : False := by
  have heq : chainIter places orig i = chainIter places orig j := by rw [hi, hj]
  have hshift := chainIter_shift places orig i j heq (t - j)
  have hjt2 : j + (t - j) = t := Nat.add_sub_cancel' (Nat.le_of_lt hjt)
  rw [hjt2] at hshift
  have hcongr := chainStop_congr places orig (i + (t - j)) t hshift
  rw [hmin _ (by omega) (by omega), hstop] at hcongr
  cases hcongr

theorem chainSeg_mem (places : List (Nat × Place)) (orig : Nat) :
    ∀ (n k x : Nat), x ∈ chainSeg places orig k n →
      ∃ m, k ≤ m ∧ m < k + n ∧ chainIter places orig m = some x := by
  intro n
  induction n with
  | zero => intro k x hx; simp [chainSeg] at hx
  | succ n ih =>
    intro k x hx
    cases hc : chainIter places orig k with
    | none =>
      simp only [chainSeg, hc] at hx
      exact absurd hx (List.not_mem_nil _)
    | some v =>
      simp only [chainSeg, hc] at hx
      rcases List.mem_cons.mp hx with rfl | hx2
      · exact ⟨k, Nat.le_refl k, by omega, hc⟩
      · obtain ⟨m, h1, h2, h3⟩ := ih (k + 1) x hx2
        exact ⟨m, by omega, by omega, h3⟩

theorem chainSeg_nodup (places : List (Nat × Place)) (orig t : Nat)
    (hstop : chainStop places orig t = true)
    (hmin : ∀ m, m < t → 1 ≤ m → chainStop places orig m = false) :
    ∀ n k, k + n ≤ t → (chainSeg places orig k n).Nodup := by
  intro n
  induction n with
  | zero => intro k _; simp [chainSeg]
  | succ n ih =>
    intro k hkn
    cases hc : chainIter places orig k with
    | none => simp only [chainSeg, hc]; exact List.nodup_nil
    | some v =>
      simp only [chainSeg, hc]
      rw [List.nodup_cons]
      constructor
      · intro hmem
        obtain ⟨m, h1, h2, h3⟩ := chainSeg_mem places orig n (k + 1) v hmem
        exact chain_inj places orig t hstop hmin k m v (by omega) (by omega) hc h3
      · exact ih (k + 1) (by omega)

theorem hierAux_chain (places : List (Nat × Place)) (orig t : Nat)
    (hstop : chainStop places orig t = true)
    (hmin : ∀ m, m < t → 1 ≤ m → chainStop places orig m = false) :
    ∀ (n k fuel : Nat) (acc : List (Nat × Place)) (v : Nat),
      1 ≤ k → k + n = t → n + 1 ≤ fuel →
      chainIter places orig k = some v →
      ∃ l, hierAux places orig fuel v acc = .ok l ∧
        l.map Prod.fst = (acc.map Prod.fst).reverse ++ chainSeg places orig k n := by
  intro n
  induction n with
  | zero =>
    intro k fuel acc v hk hkt hfuel hv
    have hkt2 : k = t := by omega
    subst hkt2
    have hst := hstop
    unfold chainStop at hst
    rw [hv] at hst
    have hcond : v = 1 ∨ v = orig := by simpa using hst
    cases fuel with
    | zero => omega
    | succ f =>
      refine ⟨acc.reverse, ?_, ?_⟩
      · rw [hierAux, if_pos hcond]
      · simp only [chainSeg]
        simp [List.map_reverse]
  | succ n ih =>
    intro k fuel acc v hk hkt hfuel hv
    have hcstop : chainStop places orig k = false := hmin k (by omega) hk
    unfold chainStop at hcstop
    rw [hv] at hcstop
    have hvcond : ¬(v = 1 ∨ v = orig) := by simpa using hcstop
    have hts : (chainIter places orig t).isSome := by
      have hst := hstop
      unfold chainStop at hst
      cases hc : chainIter places orig t with
      | none => rw [hc] at hst; cases hst
      | some u => simp
    have hk1 : (chainIter places orig (k + 1)).isSome :=
      chainIter_isSome_of_le places orig (k + 1) t (by omega) hts
    obtain ⟨w, hw⟩ := Option.isSome_iff_exists.mp hk1
    have hw2 : parentOf places v = some w := by
      rw [chainIter_succ, hv] at hw
      simpa using hw
    obtain ⟨pl, hpl, hplp⟩ : ∃ pl, lookupPlace places v = some pl ∧ pl.parent = w := by
      unfold parentOf at hw2
      cases hlp : lookupPlace places v with
      | none => rw [hlp] at hw2; cases hw2
      | some pl =>
        rw [hlp] at hw2
        simp at hw2
        exact ⟨pl, rfl, hw2⟩
    cases fuel with
    | zero => omega
    | succ f =>
      obtain ⟨l, hl, hmap⟩ := ih (k + 1) f ((v, pl) :: acc) w (by omega) (by omega)
        (by omega) hw
      refine ⟨l, ?_, ?_⟩
      · rw [hierAux, if_neg hvcond]
        simp only [hpl]
        rw [hplp]
        exact hl
      · rw [hmap]
        simp only [chainSeg, hv]
        simp [List.append_assoc]

/-- C7 amended: the walk terminates and never repeats a place id provided the
parent chain from the leaf first reaches a stop id (the sentinel 1 or the leaf
itself) after finitely many steps and the fuel covers that bound; on stores
whose reachable parent links cycle without passing through a stop id the walk
diverges and revisits ids (see the counterexample). -/
theorem walk_ok_nodup_of_chain_stop (places : List (Nat × Place))
    (orig t fuel : Nat) (ht : 1 ≤ t) (hfuel : t ≤ fuel)
    (hstop : chainStop places orig t = true)
    (hmin : ∀ m, m < t → 1 ≤ m → chainStop places orig m = false) :
    ∃ l, get_place_hierarchy places fuel orig = .ok l ∧ (l.map Prod.fst).Nodup := by
  obtain ⟨n, rfl⟩ : ∃ n, t = n + 1 := ⟨t - 1, by omega⟩
  have hts : (chainIter places orig (n + 1)).isSome := by
    have hst := hstop
    unfold chainStop at hst
    cases hc : chainIter places orig (n + 1) with
    | none => rw [hc] at hst; cases hst
    | some u => simp
  have h1s : (chainIter places orig 1).isSome :=
    chainIter_isSome_of_le places orig 1 (n + 1) (by omega) hts
  obtain ⟨w, hw⟩ := Option.isSome_iff_exists.mp h1s
  have hw2 : parentOf places orig = some w := by
    rw [show (1 : Nat) = 0 + 1 from rfl, chainIter_succ] at hw
    simpa [chainIter] using hw
  obtain ⟨pl0, hpl0, hpl0p⟩ : ∃ pl, lookupPlace places orig = some pl ∧ pl.parent = w := by
    unfold parentOf at hw2
    cases hlp : lookupPlace places orig with
    | none => rw [hlp] at hw2; cases hw2
    | some pl =>
      rw [hlp] at hw2
      simp at hw2
      exact ⟨pl, rfl, hw2⟩
  obtain ⟨l, hl, hmap⟩ := hierAux_chain places orig (n + 1) hstop hmin n 1 fuel
    [(orig, pl0)] w (Nat.le_refl 1) (by omega) (by omega) hw
  refine ⟨l, ?_, ?_⟩
  · unfold get_place_hierarchy
    simp only [hpl0]
    rw [hpl0p]
    exact hl
  · rw [hmap]
    have hseg : chainSeg places orig 0 (n + 1) = orig :: chainSeg places orig 1 n := by
      simp only [chainSeg]
      rfl
    have hgoal : ([(orig, pl0)].map Prod.fst).reverse ++ chainSeg places orig 1 n =
        chainSeg places orig 0 (n + 1) := by
      rw [hseg]
      simp
    rw [hgoal]
    exact chainSeg_nodup places orig (n + 1) hstop hmin (n + 1) 0 (by omega)

theorem walk_ok_nodup_of_chain_stop_witness :
    (1 ≤ 2 ∧ 2 ≤ 5 ∧ chainStop okPlaces 2 2 = true ∧
      (∀ m, m < 2 → 1 ≤ m → chainStop okPlaces 2 m = false)) ∧
      ∃ l, get_place_hierarchy okPlaces 5 2 = .ok l ∧ (l.map Prod.fst).Nodup :=
  ⟨⟨by decide, by decide, by decide, by decide⟩,
    walk_ok_nodup_of_chain_stop okPlaces 2 2 5 (by decide) (by decide) (by decide)
      (by decide)⟩

/-- C7 counterexample: with the parent cycle 3 → 4 → 3 that avoids the
sentinel and the leaf 2, the walk's visit trace repeats place ids (so it is
not duplicate-free), and the walk never reaches a stop condition (fuel 50 is
exhausted). -/
theorem hierTrace_repeats_in_cycle :
    hierTrace cycPlaces 6 2 = [2, 3, 4, 3, 4, 3, 4] ∧
      ¬(hierTrace cycPlaces 6 2).Nodup ∧
      get_place_hierarchy cycPlaces 50 2 = .error .fuelExhausted :=
  ⟨rfl, by decide, rfl⟩
